import Mathlib

/-!
Verification of the funding-rate monitoring core against its specification.

The definitions below are a shallow embedding of the Rust sources:
`src/websocket/client.rs` (adapters and message handlers),
`src/request/client.rs` (listing fetch, dedup and sort),
`src/app/mod.rs` (orchestrator: universe fetch and the abort/drain/spawn
switch protocol), and `src/third_party/lighter/data.rs` (wire structures).

Numeric `f64` values are modelled by `F64`: the IEEE special values `nan`,
`inf`, `ninf` are explicit constructors and finite values are exact
rationals (arithmetic on finite values is exact; every concrete value used
in a theorem below is exactly representable, so no rounding is elided at
any evaluated point).
-/

/-- Model of an `f64` value: NaN, the two infinities, or a finite value
represented exactly as a rational. -/
inductive F64 where
  | nan : F64
  | inf : F64
  | ninf : F64
  | fin : ℚ → F64
deriving DecidableEq, Repr

/-- IEEE-style division on the `F64` model (`x / 0` gives an infinity,
`0 / 0` gives NaN, NaN propagates); finite quotients are exact. -/
def fdiv : F64 → F64 → F64
  | .nan, _ => .nan
  | _, .nan => .nan
  | .inf, .inf => .nan
  | .inf, .ninf => .nan
  | .ninf, .inf => .nan
  | .ninf, .ninf => .nan
  | .inf, .fin b => if b < 0 then .ninf else .inf
  | .ninf, .fin b => if b < 0 then .inf else .ninf
  | .fin _, .inf => .fin 0
  | .fin _, .ninf => .fin 0
  | .fin a, .fin b =>
    if b = 0 then (if a = 0 then .nan else if a < 0 then .ninf else .inf)
    else .fin (a / b)

/-- IEEE-style multiplication on the `F64` model (`inf * 0` gives NaN,
NaN propagates); finite products are exact. -/
def fmul : F64 → F64 → F64
  | .nan, _ => .nan
  | _, .nan => .nan
  | .inf, .inf => .inf
  | .inf, .ninf => .ninf
  | .ninf, .inf => .ninf
  | .ninf, .ninf => .inf
  | .inf, .fin b => if b = 0 then .nan else if b < 0 then .ninf else .inf
  | .fin a, .inf => if a = 0 then .nan else if a < 0 then .ninf else .inf
  | .ninf, .fin b => if b = 0 then .nan else if b < 0 then .inf else .ninf
  | .fin a, .ninf => if a = 0 then .nan else if a < 0 then .inf else .ninf
  | .fin a, .fin b => .fin (a * b)

/-- Numeric value of a list of decimal digit characters. -/
def digitsToNat (l : List Char) : ℕ :=
  l.foldl (fun n c => 10 * n + (c.toNat - 48)) 0

/-- Optional sign at the front of a character list; returns whether the
value is negated and the remaining characters. -/
def stripSign : List Char → Bool × List Char
  | '-' :: t => (true, t)
  | '+' :: t => (false, t)
  | l => (false, l)

/-- Exponent suffix of Rust's float grammar: empty, or `e`/`E` followed by
an optionally signed digit string that must run to the end of the input
(input is already lowercased). -/
def parseExpSuffix : List Char → Option ℤ
  | [] => some 0
  | c :: r =>
    if c = 'e' then
      let sr := stripSign r
      let ds := sr.2.takeWhile Char.isDigit
      let rest := sr.2.dropWhile Char.isDigit
      if ds = [] ∨ rest ≠ [] then none
      else some (if sr.1 then -(digitsToNat ds : ℤ) else (digitsToNat ds : ℤ))
    else none

/-- Mantissa-with-exponent part of Rust's float grammar:
`Digit+ ('.' Digit*)? Exp?` or `'.' Digit+ Exp?`. -/
def parseMantissa (l : List Char) : Option ℚ :=
  let d1 := l.takeWhile Char.isDigit
  let r1 := l.dropWhile Char.isDigit
  match r1 with
  | '.' :: r2 =>
    let d2 := r2.takeWhile Char.isDigit
    let r3 := r2.dropWhile Char.isDigit
    if d1 = [] ∧ d2 = [] then none
    else
      match parseExpSuffix r3 with
      | none => none
      | some ex =>
        some (((digitsToNat d1 : ℚ) + (digitsToNat d2 : ℚ) / (10 : ℚ) ^ d2.length)
          * (10 : ℚ) ^ ex)
  | _ =>
    if d1 = [] then none
    else
      match parseExpSuffix r1 with
      | none => none
      | some ex => some ((digitsToNat d1 : ℚ) * (10 : ℚ) ^ ex)

/-- Model of Rust's `str::parse::<f64>()`: an optional sign followed by a
case-insensitive `inf`, `infinity` or `nan`, or a decimal number with
optional fraction and exponent. `none` models `Err(ParseFloatError)`. -/
def parse_f64 (s : String) : Option F64 :=
  let l := s.data.map Char.toLower
  let sr := stripSign l
  if sr.2 = ['i', 'n', 'f'] ∨ sr.2 = ['i', 'n', 'f', 'i', 'n', 'i', 't', 'y'] then
    some (if sr.1 then F64.ninf else F64.inf)
  else if sr.2 = ['n', 'a', 'n'] then some F64.nan
  else
    match parseMantissa sr.2 with
    | none => none
    | some q => some (F64.fin (if sr.1 then -q else q))

/-- Model of `s.parse::<f64>().unwrap_or(0.0)` as used by both message
handlers in `src/websocket/client.rs`. -/
def parse_f64_or_zero (s : String) : F64 :=
  (parse_f64 s).getD (F64.fin 0)

/-- The canonical update record: the tuple
`(String, f64, f64, f64, u8)` pushed onto the shared unbounded channel
(coin, funding, open interest, price, exchange tag). -/
structure AssetUpdate where
  symbol : String
  funding : F64
  open_interest : F64
  price : F64
  exchange : ℕ
deriving DecidableEq, Repr

/-- Fields of a Hyperliquid perpetual-contract context used by
`handle_hyperliquid_message` (all numeric-parseable strings on the wire). -/
structure PerpsAssetCtx where
  funding : String
  open_interest : String
  oracle_px : String
deriving DecidableEq, Repr

/-- Payload kinds of a Hyperliquid active-asset-context message: only the
perpetuals variant is handled, every other variant is ignored. -/
inductive AssetCtx where
  | perps : PerpsAssetCtx → AssetCtx
  | other : AssetCtx
deriving DecidableEq, Repr

/-- Inner data of a Hyperliquid `ActiveAssetCtx` message. -/
structure ActiveAssetCtxData where
  coin : String
  ctx : AssetCtx
deriving DecidableEq, Repr

/-- A Hyperliquid `ActiveAssetCtx` message. -/
structure ActiveAssetCtx where
  data : ActiveAssetCtxData
deriving DecidableEq, Repr

/-- `handle_hyperliquid_message` from `src/websocket/client.rs`: for a
perpetuals context, parse the three numeric fields (defaulting each to 0.0
on parse failure) and send one update tagged with the `exchange` argument;
other payloads send nothing. The returned list is the sequence of sends. -/
def handle_hyperliquid_message (active_ctx : ActiveAssetCtx) (exchange : ℕ) :
    List AssetUpdate :=
  match active_ctx.data.ctx with
  | .perps p =>
    [{ symbol := active_ctx.data.coin
       funding := parse_f64_or_zero p.funding
       open_interest := parse_f64_or_zero p.open_interest
       price := parse_f64_or_zero p.oracle_px
       exchange := exchange }]
  | .other => []

/-- `FundingRate` from `src/third_party/lighter/data.rs`; `market_id` is a
`u8` on the wire, modelled as a natural number. -/
structure FundingRate where
  market_id : ℕ
  exchange : String
  symbol : String
  rate : ℚ
deriving DecidableEq, Repr

/-- `MarketStatEntry` from `src/third_party/lighter/data.rs`; `market_id`
is a `u64` on the wire, the numeric statistics fields are strings. -/
structure MarketStatEntry where
  market_id : ℕ
  index_price : String
  mark_price : String
  open_interest : String
  open_interest_limit : String
  funding_clamp_small : String
  funding_clamp_big : String
  last_trade_price : String
  current_funding_rate : String
  funding_rate : String
  funding_timestamp : ℤ
  daily_base_token_volume : ℚ
  daily_quote_token_volume : ℚ
  daily_price_low : ℚ
  daily_price_high : ℚ
  daily_price_change : ℚ
deriving DecidableEq, Repr

/-- `MarketStatsMessage` from `src/third_party/lighter/data.rs`; the
`market_stats` hash map is modelled as its iteration sequence. -/
structure MarketStatsMessage where
  channel : String
  market_stats : List (String × MarketStatEntry)
  message_type : String
deriving DecidableEq, Repr

/-- Lookup in the model of `HashMap<u8, String>`: the first (most recently
inserted) binding for the key wins. -/
def mapLookup (m : List (ℕ × String)) (k : ℕ) : Option String :=
  match m with
  | [] => none
  | p :: t => if p.1 = k then some p.2 else mapLookup t k

/-- The `market_map` built in `lighter_websocket`: every fetched
`FundingRate` is inserted keyed by its (8-bit) market id; a later insert
for the same key overwrites an earlier one. -/
def buildMarketMap (rates : List FundingRate) : List (ℕ × String) :=
  rates.foldl (fun m r => (r.market_id, r.symbol) :: m) []

/-- Symbol resolution in `handle_lighter_message`: the wire market id (a
`u64`) is cast `as u8`, i.e. reduced modulo 256, before the map lookup;
a missing key yields the placeholder `UNKNOWN_<id>` carrying the full,
untruncated id. -/
def resolveSymbol (market_map : List (ℕ × String)) (id : ℕ) : String :=
  match mapLookup market_map (id % 256) with
  | some s => s
  | none => "UNKNOWN_" ++ toString id

/-- The single update sent by `handle_lighter_message` for one market
statistics entry: funding from `current_funding_rate`, price from
`mark_price`, and open interest computed as
`open_interest.parse().unwrap_or(0.0) / price * 2.0`. -/
def lighterUpdate (market_map : List (ℕ × String)) (exchange : ℕ)
    (stats : MarketStatEntry) : AssetUpdate :=
  { symbol := resolveSymbol market_map stats.market_id
    funding := parse_f64_or_zero stats.current_funding_rate
    open_interest :=
      fmul (fdiv (parse_f64_or_zero stats.open_interest)
        (parse_f64_or_zero stats.mark_price)) (F64.fin 2)
    price := parse_f64_or_zero stats.mark_price
    exchange := exchange }

/-- `handle_lighter_message` from `src/websocket/client.rs`: one update is
sent per entry of the batched statistics message, in iteration order. -/
def handle_lighter_message (parsed : MarketStatsMessage)
    (exchange : ℕ) (market_map : List (ℕ × String)) : List AssetUpdate :=
  parsed.market_stats.map (fun p => lighterUpdate market_map exchange p.2)

/-- Comparator used by `sort_by` in `coin_list_metadate_lighter`:
ascending market id. -/
def leId (a b : FundingRate) : Prop := a.market_id ≤ b.market_id

instance : DecidableRel leId := fun a b => Nat.decLe a.market_id b.market_id

instance : IsTotal FundingRate leId := ⟨fun a b => Nat.le_total a.market_id b.market_id⟩

instance : IsTrans FundingRate leId := ⟨fun _ _ _ h1 h2 => Nat.le_trans h1 h2⟩

/-- Worker of `dedup_by_key`: `prev` is the last retained entry; an entry
whose key equals `prev`'s key is dropped, otherwise it is retained and
becomes the new comparison point. This is `Vec::dedup_by_key` keyed by
`market_id`, which only removes consecutive duplicates. -/
def dedup_by_key_go (prev : FundingRate) : List FundingRate → List FundingRate
  | [] => []
  | b :: t =>
    if b.market_id = prev.market_id then dedup_by_key_go prev t
    else b :: dedup_by_key_go b t

/-- `funding_rates.dedup_by_key(|c| c.market_id)` from
`src/request/client.rs`. -/
def dedup_by_key : List FundingRate → List FundingRate
  | [] => []
  | a :: t => a :: dedup_by_key_go a t

/-- `funding_rates.sort_by(|a, b| a.market_id.cmp(&b.market_id))`: a stable
sort by ascending market id (Rust's `sort_by` is stable, so it agrees with
insertion sort). -/
def sort_by_market_id (l : List FundingRate) : List FundingRate :=
  List.insertionSort leId l

/-- The listing post-processing step performed by
`coin_list_metadate_lighter`, in source order: dedup first (adjacent in the
original listing order), then sort. -/
def lighter_listing_step (l : List FundingRate) : List FundingRate :=
  sort_by_market_id (dedup_by_key l)

/-- The spec's description of the same step, for refinement comparison
(spec section 3, `MarketIdIndex`): sort by market id ascending first, then
drop adjacent duplicates. This definition follows the spec's words, not
the source. -/
def spec_sorted_dedup (l : List FundingRate) : List FundingRate :=
  dedup_by_key (sort_by_market_id l)

/-- `ApiFundingRatesResponse` from `src/third_party/lighter/data.rs`. -/
structure ApiFundingRatesResponse where
  code : ℕ
  funding_rates : List FundingRate
deriving DecidableEq, Repr

/-- `coin_list_metadate_lighter` from `src/request/client.rs`: a transport
or JSON failure (`none` input) propagates as an error, a non-200 code is
an error, otherwise the listing is deduped then sorted. -/
def coin_list_metadate_lighter (resp : Option ApiFundingRatesResponse) :
    Option (List FundingRate) :=
  match resp with
  | none => none
  | some r =>
    if r.code ≠ 200 then none
    else some (lighter_listing_step r.funding_rates)

/-- Adapters dispatched by `create_batch_websocket_task`. -/
inductive AdapterKind where
  | hyperliquid
  | lighter
deriving DecidableEq, Repr

/-- `create_batch_websocket_task` from `src/websocket/client.rs`: the list
of adapter tasks spawned for an exchange selection, paired with the
`exchange` argument each adapter function receives (the tag it will stamp
on every update). Selection 3 spawns both adapters, each with argument 3;
an unknown selection defaults to Hyperliquid with tag 1. -/
def create_batch_websocket_task (current_exchange : ℕ) :
    List (AdapterKind × ℕ) :=
  match current_exchange with
  | 1 => [(.hyperliquid, 1)]
  | 2 => [(.lighter, 2)]
  | 3 => [(.hyperliquid, 3), (.lighter, 3)]
  | _ => [(.hyperliquid, 1)]

/-- Outcome of a call that may panic (`unwrap`/`expect`), return a value,
or return an error. -/
inductive FetchOutcome (α : Type) where
  | panicked
  | ok : α → FetchOutcome α
  | err
deriving DecidableEq, Repr

/-- `App::fetch_coin_list` from `src/app/mod.rs`, parameterized by the
outcomes of the two underlying metadata fetches (`none` models a failed
fetch). Every branch calls `.unwrap()` on its fetch, so a failed fetch
panics; the function never returns an `Err`. -/
def fetch_coin_list (exchange : ℕ) (hl_meta : Option (List String))
    (lighter_rates : Option (List FundingRate)) : FetchOutcome (List String) :=
  match exchange with
  | 1 =>
    match hl_meta with
    | some names => .ok names
    | none => .panicked
  | 2 =>
    match lighter_rates with
    | some rates => .ok (rates.map FundingRate.symbol)
    | none => .panicked
  | _ =>
    match hl_meta with
    | some names => .ok names
    | none => .panicked

/-- Outcome of the exchange-change branch of the `ws_manager` loop in
`App::run`. -/
inductive SwitchOutcome where
  | panicked
  | switched : List String → SwitchOutcome
  | retained_prev
deriving DecidableEq, Repr

/-- The exchange-change branch of `App::run` (`src/app/mod.rs`, the match
on `App::fetch_coin_list`): `Ok` restarts the websockets with the new
coins, the `Err` arm keeps the current coins, and a panic inside
`fetch_coin_list` propagates and kills the manager task. -/
def exchange_change_branch (fetch_result : FetchOutcome (List String)) :
    SwitchOutcome :=
  match fetch_result with
  | .panicked => .panicked
  | .ok coins => .switched coins
  | .err => .retained_prev

/-- Events observed by the `lighter_websocket` reconnect loop. Every
constructor except `connectOk` is a failure that exits back to the outer
loop: a failed `connect_async`, a failed subscribe send, a failed ping or
pong send, a websocket error, a close frame, a 60-second receive timeout,
or the stream ending. -/
inductive LighterEv where
  | connectOk
  | connectFail
  | sendSubFail
  | pingSendFail
  | pongSendFail
  | recvErr
  | recvClose
  | recvTimeout
  | streamEnd
deriving DecidableEq, Repr

/-- `reconnect_delay = std::cmp::min(reconnect_delay * 2, max_reconnect_delay)`
with the 60-second cap, in seconds. -/
def next_delay (d : ℕ) : ℕ := min (2 * d) 60

/-- The backoff behaviour of `lighter_websocket`'s reconnection loop:
given the current `reconnect_delay` (seconds) and a sequence of events,
return the list of sleep durations performed and the final delay. A
successful connection resets the delay to 1 s and sleeps nothing; every
failure sleeps the current delay and then doubles it, capped at 60 s. -/
def lighter_run (d : ℕ) : List LighterEv → List ℕ × ℕ
  | [] => ([], d)
  | .connectOk :: evs => lighter_run 1 evs
  | _ :: evs =>
    let r := lighter_run (next_delay d) evs
    (d :: r.1, r.2)

/-- Termination behaviour of the `lighter_websocket` task. -/
inductive LighterTaskOutcome where
  | err_end
  | running : List (ℕ × String) → ℕ → LighterTaskOutcome
deriving DecidableEq, Repr

/-- Control flow of `lighter_websocket` (`src/websocket/client.rs`): the
initial listing fetch failing propagates with `?` and ends the task with
an error; once the market map is built the reconnect loop is infinite, so
after any finite sequence of transport events the task is still running
(with the market map and the current backoff delay). -/
def lighter_websocket (fetch : Option (List FundingRate))
    (evs : List LighterEv) : LighterTaskOutcome :=
  match fetch with
  | none => .err_end
  | some rates => .running (buildMarketMap rates) (lighter_run 1 evs).2

/-- Startup outcome of the `hyperliquid_websocket` task. -/
inductive HlStartOutcome where
  | panicked
  | subscribed
deriving DecidableEq, Repr

/-- Startup of `hyperliquid_websocket` (`src/websocket/client.rs`):
`InfoClient::new(..).await.expect(..)` panics if client creation fails,
and each per-coin `subscribe(..).await.expect(..)` panics if that
subscription fails; otherwise the task reaches its receive loop. -/
def hyperliquid_start (client : Option Unit) (sub_results : List (Option Unit)) :
    HlStartOutcome :=
  match client with
  | none => .panicked
  | some _ => if sub_results.all Option.isSome then .subscribed else .panicked

/-- Manager operations of the `ws_manager` task in `App::run` for one
(successful) exchange switch, in source order: `join_set.abort_all()`,
then draining `join_next` until empty, then spawning the new task set. -/
inductive MOp where
  | abortAll
  | drainDone
  | spawnOp : ℕ → MOp
deriving DecidableEq, Repr

/-- The sequence of manager operations performed by `ws_manager` for a
sequence of exchange selections (the initial start and each subsequent
successful switch each perform abort, drain, spawn). -/
def managerProg : List ℕ → List MOp
  | [] => []
  | sel :: rest => .abortAll :: .drainDone :: .spawnOp sel :: managerProg rest

/-- The exchange tags of the adapter tasks spawned for a selection. -/
def spawnTags (sel : ℕ) : List ℕ :=
  (create_batch_websocket_task sel).map Prod.snd

/-- Interleaving state of the orchestrator and its tasks. The `JoinSet`
in `ws_manager` holds only wrapper tasks — the futures built by
`start_websockets` in `src/app/mod.rs` that merely await the `JoinHandle`
returned by `create_batch_websocket_task`: `wrappers` has one entry per
live wrapper, `true` once `abort_all` has requested its cancellation. The
updates themselves are emitted by the adapter tasks that
`create_batch_websocket_task` spawns with its own `tokio::spawn`
(`src/websocket/client.rs`, and for the composite selection two further
nested spawns); `emitters` holds the exchange tags of those live adapter
tasks. `consumed` counts executed manager operations. -/
structure SysState where
  emitters : List ℕ
  wrappers : List Bool
  consumed : ℕ
deriving DecidableEq, Repr

/-- Scheduler events: a live adapter task sends an update onto the shared
queue; an adapter task terminates on its own; a wrapper task whose
cancellation was requested finishes — which drops the `JoinHandle` of the
adapter task it was awaiting, and dropping a tokio `JoinHandle` detaches
the task rather than aborting it; or the manager executes its next
operation. -/
inductive SysEv where
  | emit : ℕ → SysEv
  | adapterEnd : ℕ → SysEv
  | wrapperEnd : SysEv
  | mstep
deriving DecidableEq, Repr

/-- One interleaving step. `join_set.abort_all()` requests cancellation of
the wrapper tasks only, and the drain loop
(`while let Some(..) = join_set.join_next().await`) completes exactly when
every wrapper has terminated. Nothing in the manager aborts the adapter
tasks themselves: a cancelled wrapper merely detaches the adapter task it
was awaiting, so that task stays in `emitters` and can still emit after
the drain has completed. (A wrapper can also finish normally when its
adapter task finishes; that path only removes a wrapper and is not needed
by the schedule exhibited below.) The step returns the new state and, for
an emit, the queue record
`(manager operations executed so far, exchange tag)`. -/
def sys_step (switches : List ℕ) (s : SysState) :
    SysEv → Option (SysState × Option (ℕ × ℕ))
  | .emit t => if t ∈ s.emitters then some (s, some (s.consumed, t)) else none
  | .adapterEnd t =>
    if t ∈ s.emitters then some ({ s with emitters := s.emitters.erase t }, none)
    else none
  | .wrapperEnd =>
    if true ∈ s.wrappers then
      some ({ s with wrappers := s.wrappers.erase true }, none)
    else none
  | .mstep =>
    match (managerProg switches)[s.consumed]? with
    | none => none
    | some .abortAll =>
      some ({ s with wrappers := s.wrappers.map (fun _ => true)
                     consumed := s.consumed + 1 }, none)
    | some .drainDone =>
      if s.wrappers = [] then some ({ s with consumed := s.consumed + 1 }, none)
      else none
    | some (.spawnOp sel) =>
      some ({ emitters := s.emitters ++ spawnTags sel,
              wrappers := s.wrappers ++ [false],
              consumed := s.consumed + 1 }, none)

/-- Run a sequence of interleaving events, collecting the emitted queue
records; `none` means the sequence is not a valid schedule. -/
def sys_exec (switches : List ℕ) (s : SysState) :
    List SysEv → Option (SysState × List (ℕ × ℕ))
  | [] => some (s, [])
  | e :: evs =>
    match sys_step switches s e with
    | none => none
    | some (s2, ent) =>
      match sys_exec switches s2 evs with
      | none => none
      | some (s3, log) => some (s3, ent.toList ++ log)

/-- Initial state of the `ws_manager` task: no adapter running, no wrapper
in the `JoinSet`, no manager operation executed yet. -/
def initialSysState : SysState := { emitters := [], wrappers := [], consumed := 0 }

/-- Adjacent entries differing in market id. -/
def neId (a b : FundingRate) : Prop := a.market_id ≠ b.market_id

theorem dedup_by_key_go_sublist (l : List FundingRate) :
    ∀ prev : FundingRate, List.Sublist (dedup_by_key_go prev l) l := by
  induction l with
  | nil => intro prev; simp [dedup_by_key_go]
  | cons b t ih =>
    intro prev
    by_cases h : b.market_id = prev.market_id
    · simp only [dedup_by_key_go, if_pos h]
      exact (ih prev).cons b
    · simp only [dedup_by_key_go, if_neg h]
      exact (ih b).cons₂ b

theorem dedup_by_key_sublist (l : List FundingRate) : List.Sublist (dedup_by_key l) l := by
  cases l with
  | nil => exact List.Sublist.refl []
  | cons a t =>
    show List.Sublist (a :: dedup_by_key_go a t) (a :: t)
    exact (dedup_by_key_go_sublist t a).cons₂ a

theorem dedup_by_key_go_chain (l : List FundingRate) :
    ∀ prev : FundingRate, List.Chain neId prev (dedup_by_key_go prev l) := by
  induction l with
  | nil => intro prev; exact List.Chain.nil
  | cons b t ih =>
    intro prev
    by_cases h : b.market_id = prev.market_id
    · simpa only [dedup_by_key_go, if_pos h] using ih prev
    · simp only [dedup_by_key_go, if_neg h]
      exact List.Chain.cons (fun he => h he.symm) (ih b)

theorem dedup_by_key_chainNe (l : List FundingRate) :
    List.Chain' neId (dedup_by_key l) := by
  cases l with
  | nil => exact trivial
  | cons a t =>
    show List.Chain neId a (dedup_by_key_go a t)
    exact dedup_by_key_go_chain t a

theorem dedup_by_key_go_eq_self (l : List FundingRate) :
    ∀ prev : FundingRate, List.Chain neId prev l → dedup_by_key_go prev l = l := by
  induction l with
  | nil => intro prev _; rfl
  | cons b t ih =>
    intro prev hc
    rw [List.chain_cons] at hc
    have hne : ¬b.market_id = prev.market_id := fun he => hc.1 he.symm
    simp only [dedup_by_key_go, if_neg hne]
    rw [ih b hc.2]

theorem dedup_by_key_eq_self (l : List FundingRate) (h : List.Chain' neId l) :
    dedup_by_key l = l := by
  cases l with
  | nil => rfl
  | cons a t =>
    show a :: dedup_by_key_go a t = a :: t
    rw [dedup_by_key_go_eq_self t a h]

theorem sorted_lighter_listing_step (l : List FundingRate) :
    List.Sorted leId (lighter_listing_step l) :=
  List.sorted_insertionSort leId (dedup_by_key l)

theorem lighter_listing_step_twice (l : List FundingRate) :
    lighter_listing_step (lighter_listing_step l)
      = dedup_by_key (lighter_listing_step l) := by
  have hd : List.Sorted leId (dedup_by_key (lighter_listing_step l)) :=
    (sorted_lighter_listing_step l).sublist (dedup_by_key_sublist _)
  exact List.Sorted.insertionSort_eq hd

theorem lighter_run_connectOk (d : ℕ) (evs : List LighterEv) :
    lighter_run d (LighterEv.connectOk :: evs) = lighter_run 1 evs := rfl

theorem next_delay_pow (j : ℕ) :
    next_delay (min (2 ^ j) 60) = min (2 ^ (j + 1)) 60 := by
  have h2 : 2 ^ (j + 1) = 2 * 2 ^ j := by ring
  unfold next_delay
  omega

theorem lighter_run_failures (evs : List LighterEv)
    (h : ∀ e ∈ evs, e ≠ LighterEv.connectOk) :
    ∀ j : ℕ, (lighter_run (min (2 ^ j) 60) evs).1
      = (List.range evs.length).map (fun i => min (2 ^ (j + i)) 60) := by
  induction evs with
  | nil => intro j; simp [lighter_run]
  | cons e t ih =>
    intro j
    have he : e ≠ LighterEv.connectOk := h e (List.mem_cons_self e t)
    have ht : ∀ x ∈ t, x ≠ LighterEv.connectOk :=
      fun x hx => h x (List.mem_cons_of_mem e hx)
    have hstep : lighter_run (min (2 ^ j) 60) (e :: t)
        = (min (2 ^ j) 60 :: (lighter_run (next_delay (min (2 ^ j) 60)) t).1,
           (lighter_run (next_delay (min (2 ^ j) 60)) t).2) := by
      cases e with
      | connectOk => exact absurd rfl he
      | connectFail => rfl
      | sendSubFail => rfl
      | pingSendFail => rfl
      | pongSendFail => rfl
      | recvErr => rfl
      | recvClose => rfl
      | recvTimeout => rfl
      | streamEnd => rfl
    rw [hstep]
    simp only [next_delay_pow j]
    rw [ih ht (j + 1)]
    have hfun : List.map (fun i => 2 ^ (j + 1 + i) ⊓ 60) (List.range t.length)
        = List.map ((fun i => 2 ^ (j + i) ⊓ 60) ∘ Nat.succ) (List.range t.length) :=
      List.map_congr_left (fun i _ => by
        simp only [Function.comp_apply]
        rw [show j + 1 + i = j + (i + 1) from by omega])
    simp only [List.length_cons, List.range_succ_eq_map, List.map_cons,
      List.map_map, Nat.add_zero]
    rw [hfun]

example : parse_f64 "inf" = some F64.inf := by decide
example : parse_f64 "-Inf" = some F64.ninf := by decide
example : parse_f64 "abc" = none := by decide
example : parse_f64 "1.2.3" = none := by decide

/-- Evaluation of the numeric parser on a plain digit string. -/
theorem parse_f64_50 : parse_f64 "50" = some (F64.fin 50) := by
  rw [show parse_f64 "50"
      = some (F64.fin ((digitsToNat ['5', '0'] : ℚ) * (10 : ℚ) ^ (0 : ℤ))) from rfl,
    show digitsToNat ['5', '0'] = 50 from by decide]
  norm_num

example : parse_f64 "0.5" = some (F64.fin (1 / 2)) := by
  rw [show parse_f64 "0.5"
      = some (F64.fin (((digitsToNat ([] : List Char) : ℚ)
          + (digitsToNat ['5'] : ℚ) / (10 : ℚ) ^ ([ '5' ] : List Char).length)
          * (10 : ℚ) ^ (0 : ℤ))) from rfl,
    show digitsToNat ['5'] = 5 from by decide,
    show digitsToNat ([] : List Char) = 0 from by decide]
  norm_num


theorem parse_f64_100 : parse_f64 "100" = some (F64.fin 100) := by
  rw [show parse_f64 "100"
      = some (F64.fin ((digitsToNat ['1', '0', '0'] : ℚ) * (10 : ℚ) ^ (0 : ℤ))) from rfl,
    show digitsToNat ['1', '0', '0'] = 100 from by decide]
  norm_num

theorem parse_f64_1000 : parse_f64 "1000" = some (F64.fin 1000) := by
  rw [show parse_f64 "1000"
      = some (F64.fin ((digitsToNat ['1', '0', '0', '0'] : ℚ) * (10 : ℚ) ^ (0 : ℤ))) from rfl,
    show digitsToNat ['1', '0', '0', '0'] = 1000 from by decide]
  norm_num

theorem handle_hyperliquid_exchange_tag (a : ActiveAssetCtx) (e : ℕ) :
    ∀ u ∈ handle_hyperliquid_message a e, u.exchange = e := by
  unfold handle_hyperliquid_message
  rcases hctx : a.data.ctx with p | _
  · intro u hu
    rw [List.mem_singleton.mp hu]
  · intro u hu
    cases hu

theorem handle_lighter_exchange_tag (m : MarketStatsMessage) (e : ℕ)
    (mm : List (ℕ × String)) :
    ∀ u ∈ handle_lighter_message m e mm, u.exchange = e := by
  intro u hu
  rcases List.mem_map.mp hu with ⟨p, _, hp⟩
  rw [← hp]
  rfl

/-- Lighter listing entry with market id 1 used as a concrete fixture. -/
def frA : FundingRate :=
  { market_id := 1, exchange := "lighter", symbol := "AAA", rate := 0 }

/-- Lighter listing entry with market id 2 used as a concrete fixture. -/
def frX : FundingRate :=
  { market_id := 2, exchange := "lighter", symbol := "XXX", rate := 0 }

/-- A second listing entry with market id 1, not adjacent to `frA` in the
fixture listing. -/
def frB : FundingRate :=
  { market_id := 1, exchange := "lighter", symbol := "BBB", rate := 0 }

/-- A listing with two entries of the same market id that are not
adjacent. -/
def listing0 : List FundingRate := [frA, frX, frB]

/-- A concrete market statistics entry: `open_interest` and
`open_interest_limit` deliberately differ. -/
def statsEntry0 : MarketStatEntry :=
  { market_id := 4, index_price := "", mark_price := "50", open_interest := "100",
    open_interest_limit := "1000", funding_clamp_small := "", funding_clamp_big := "",
    last_trade_price := "", current_funding_rate := "", funding_rate := "",
    funding_timestamp := 0, daily_base_token_volume := 0, daily_quote_token_volume := 0,
    daily_price_low := 0, daily_price_high := 0, daily_price_change := 0 }

/-- A market statistics entry whose `open_interest` field is the claim's
concrete test value `1000` with price `50`. -/
def statsEntry1000 : MarketStatEntry :=
  { market_id := 4, index_price := "", mark_price := "50", open_interest := "1000",
    open_interest_limit := "1000", funding_clamp_small := "", funding_clamp_big := "",
    last_trade_price := "", current_funding_rate := "", funding_rate := "",
    funding_timestamp := 0, daily_base_token_volume := 0, daily_quote_token_volume := 0,
    daily_price_low := 0, daily_price_high := 0, daily_price_change := 0 }

/-- An entry whose 64-bit market id 260 is congruent to 4 modulo 256. -/
def statsEntry260 : MarketStatEntry :=
  { market_id := 260, index_price := "", mark_price := "50", open_interest := "100",
    open_interest_limit := "1000", funding_clamp_small := "", funding_clamp_big := "",
    last_trade_price := "", current_funding_rate := "", funding_rate := "",
    funding_timestamp := 0, daily_base_token_volume := 0, daily_quote_token_volume := 0,
    daily_price_low := 0, daily_price_high := 0, daily_price_change := 0 }

/-- A concrete batched statistics message with one entry. -/
def msg0 : MarketStatsMessage :=
  { channel := "market_stats/all"
    market_stats := [("market_stats:all", statsEntry0)]
    message_type := "update" }

/-- A market map binding key 4 to a concrete symbol. -/
def mmETH : List (ℕ × String) := [(4, "ETH")]

/-- A perpetuals context whose numeric fields are all empty strings (all
fail to parse). -/
def pEmptyStrs : PerpsAssetCtx :=
  { funding := "", open_interest := "", oracle_px := "" }

/-- A Hyperliquid message carrying `pEmptyStrs`. -/
def ctxEmpty : ActiveAssetCtx :=
  { data := { coin := "BTC", ctx := AssetCtx.perps pEmptyStrs } }

/-- A Hyperliquid message whose funding field is the string `NaN`. -/
def ctxNaN : ActiveAssetCtx :=
  { data := { coin := "ETH"
              ctx := AssetCtx.perps
                { funding := "NaN", open_interest := "100", oracle_px := "50" } } }

/-- The spec's open-interest formula for the Lighter adapter, as worded in
the spec (parsed `open_interest_limit` field divided by price, times 2);
for refinement comparison with the source's `handle_lighter_message`. -/
def spec_open_interest_formula (stats : MarketStatEntry) : F64 :=
  fmul (fdiv (parse_f64_or_zero stats.open_interest_limit)
    (parse_f64_or_zero stats.mark_price)) (F64.fin 2)

example : parse_f64 "" = none := by decide
example : parse_f64 "NaN" = some F64.nan := by decide

/-- Claim C1: the claim fails on the program. `join_set.abort_all()`
cancels only the wrapper tasks held by the `JoinSet`; a cancelled wrapper
drops the `JoinHandle` of the adapter task spawned inside
`create_batch_websocket_task`, which detaches that task instead of
aborting it, so the adapter survives the drain (the manager then logs
that all old tasks are stopped) and keeps emitting with its old exchange
tag. In the concrete 1 → 2 schedule below, the stale exchange-1 adapter
emits at manager operation count 6 — inside the exchange-2 window
(counts 5 to 8) — and the record carries tag 1, not tag 2 as the claim
requires. -/
theorem c1_stale_adapter_emission :
    sys_exec [1, 2, 1] initialSysState
      [SysEv.mstep, SysEv.mstep, SysEv.mstep, SysEv.emit 1, SysEv.mstep,
       SysEv.wrapperEnd, SysEv.mstep, SysEv.mstep, SysEv.emit 1]
      = some ({ emitters := [1, 2], wrappers := [false], consumed := 6 },
          [(3, 1), (6, 1)]) ∧
    (6, 1) ∈ [((3 : ℕ), (1 : ℕ)), (6, 1)] ∧ 5 ≤ 6 ∧ 6 < 8 ∧ (1 : ℕ) ≠ 2 := by
  decide

/-- Claim C2 counterexample: in the composite selection (3), both adapter
functions are called with exchange argument 3, and the updates each emits
carry tag 3 — not the Hyperliquid tag 1 or the Lighter tag 2 the claim
asserts. -/
theorem c2_composite_tag_counterexample :
    create_batch_websocket_task 3
      = [(AdapterKind.hyperliquid, 3), (AdapterKind.lighter, 3)] ∧
    (handle_hyperliquid_message ctxEmpty 3).map AssetUpdate.exchange = [3] ∧
    (handle_lighter_message msg0 3 []).map AssetUpdate.exchange = [3] ∧
    (3 : ℕ) ≠ 1 ∧ (3 : ℕ) ≠ 2 :=
  ⟨rfl, rfl, rfl, by decide, by decide⟩

/-- Claim C2 (amended): in the composite selection both adapters run
concurrently, but each is passed the composite selection id 3 as its
exchange argument, and every update either adapter emits carries exactly
the tag it was passed — so in composite mode all updates share tag 3
rather than the per-origin tags 1 and 2. -/
theorem c2_composite_tags_shared :
    create_batch_websocket_task 3
      = [(AdapterKind.hyperliquid, 3), (AdapterKind.lighter, 3)] ∧
    (∀ (k : AdapterKind) (e : ℕ), (k, e) ∈ create_batch_websocket_task 3 → e = 3) ∧
    (∀ (a : ActiveAssetCtx) (u : AssetUpdate) (e : ℕ),
      u ∈ handle_hyperliquid_message a e → u.exchange = e) ∧
    (∀ (m : MarketStatsMessage) (mm : List (ℕ × String)) (u : AssetUpdate) (e : ℕ),
      u ∈ handle_lighter_message m e mm → u.exchange = e) := by
  refine ⟨rfl, ?_, ?_, ?_⟩
  · intro k e h
    simp only [create_batch_websocket_task, List.mem_cons, List.mem_singleton,
      List.not_mem_nil, or_false, Prod.mk.injEq] at h
    rcases h with h | h
    · exact h.2
    · exact h.2
  · intro a u e h
    exact handle_hyperliquid_exchange_tag a e u h
  · intro m mm u e h
    exact handle_lighter_exchange_tag m e mm u h

theorem c2_composite_tags_shared_witness : (3 : ℕ) = 3 :=
  c2_composite_tags_shared.2.1 AdapterKind.hyperliquid 3 (by decide)

/-- Claim C3 counterexample: the code computes the emitted open interest
from the `open_interest` field, not from `open_interest_limit`. On an
entry with `open_interest = "100"`, `open_interest_limit = "1000"`,
`mark_price = "50"` the adapter emits `100 / 50 * 2 = 4.0`, while the
claim's formula over the open-interest-limit field gives
`1000 / 50 * 2 = 40.0`. -/
theorem c3_open_interest_field_counterexample :
    (handle_lighter_message msg0 2 []).map AssetUpdate.open_interest = [F64.fin 4] ∧
    spec_open_interest_formula statsEntry0 = F64.fin 40 ∧
    F64.fin 4 ≠ F64.fin 40 := by
  refine ⟨?_, ?_, ?_⟩
  · rw [show (handle_lighter_message msg0 2 []).map AssetUpdate.open_interest
        = [fmul (fdiv (parse_f64_or_zero "100") (parse_f64_or_zero "50"))
            (F64.fin 2)] from rfl]
    rw [parse_f64_or_zero, parse_f64_or_zero, parse_f64_100, parse_f64_50]
    simp only [Option.getD_some]
    norm_num [fdiv, fmul]
  · rw [show spec_open_interest_formula statsEntry0
        = fmul (fdiv (parse_f64_or_zero "1000") (parse_f64_or_zero "50"))
            (F64.fin 2) from rfl]
    rw [parse_f64_or_zero, parse_f64_or_zero, parse_f64_1000, parse_f64_50]
    simp only [Option.getD_some]
    norm_num [fdiv, fmul]
  · intro h
    injection h with h2
    norm_num at h2

/-- Claim C3 (amended): for every Lighter market-statistics entry, the
emitted open interest equals the parsed `open_interest` field (not the
`open_interest_limit` field) divided by the parsed price, times 2.0; each
such update is in the handler's output; and for `open_interest = "1000"`,
`mark_price = "50"` the emitted open interest is exactly 40.0. -/
theorem c3_open_interest_formula :
    (∀ (mm : List (ℕ × String)) (e : ℕ) (stats : MarketStatEntry),
      (lighterUpdate mm e stats).open_interest
        = fmul (fdiv (parse_f64_or_zero stats.open_interest)
            (parse_f64_or_zero stats.mark_price)) (F64.fin 2)) ∧
    (∀ (m : MarketStatsMessage) (e : ℕ) (mm : List (ℕ × String))
      (p : String × MarketStatEntry),
      p ∈ m.market_stats → lighterUpdate mm e p.2 ∈ handle_lighter_message m e mm) ∧
    (∀ (mm : List (ℕ × String)) (e : ℕ) (stats : MarketStatEntry),
      stats.open_interest = "1000" → stats.mark_price = "50" →
      (lighterUpdate mm e stats).open_interest = F64.fin 40) := by
  refine ⟨fun _ _ _ => rfl, ?_, ?_⟩
  · intro m e mm p hp
    exact List.mem_map_of_mem (fun q => lighterUpdate mm e q.2) hp
  · intro mm e stats hoi hpx
    show fmul (fdiv (parse_f64_or_zero stats.open_interest)
      (parse_f64_or_zero stats.mark_price)) (F64.fin 2) = F64.fin 40
    rw [hoi, hpx, parse_f64_or_zero, parse_f64_or_zero, parse_f64_1000, parse_f64_50]
    simp only [Option.getD_some]
    norm_num [fdiv, fmul]

theorem c3_open_interest_formula_witness :
    (lighterUpdate [] 2 statsEntry1000).open_interest = F64.fin 40 :=
  c3_open_interest_formula.2.2 [] 2 statsEntry1000 rfl rfl

/-- Claim C4: the claim describes the intended failure policy (on a failed
universe fetch, retain the previous universe and adapters, log, continue),
and `App::run` does contain an `Err` arm implementing it with the comment
that a failed fetch keeps the current coins — but `fetch_coin_list` calls
`.unwrap()` on every underlying fetch, so a fetch failure panics inside
`fetch_coin_list` before an `Err` can ever be returned: the retain-previous
arm is unreachable and the manager task dies instead. -/
theorem c4_fetch_failure_panics :
    exchange_change_branch (fetch_coin_list 1 none none) = SwitchOutcome.panicked ∧
    exchange_change_branch (fetch_coin_list 2 none none) = SwitchOutcome.panicked ∧
    (∀ (e : ℕ) (h : Option (List String)) (l : Option (List FundingRate)),
      exchange_change_branch (fetch_coin_list e h l) ≠ SwitchOutcome.retained_prev) := by
  refine ⟨rfl, rfl, ?_⟩
  intro e h l hcontra
  rcases e with _ | _ | _ | n
  · rcases h with _ | names
    · exact SwitchOutcome.noConfusion hcontra
    · exact SwitchOutcome.noConfusion hcontra
  · rcases h with _ | names
    · exact SwitchOutcome.noConfusion hcontra
    · exact SwitchOutcome.noConfusion hcontra
  · rcases l with _ | rates
    · exact SwitchOutcome.noConfusion hcontra
    · exact SwitchOutcome.noConfusion hcontra
  · rcases h with _ | names
    · exact SwitchOutcome.noConfusion hcontra
    · exact SwitchOutcome.noConfusion hcontra

theorem c4_fetch_failure_panics_witness :
    exchange_change_branch (fetch_coin_list 1 none none) ≠ SwitchOutcome.retained_prev :=
  c4_fetch_failure_panics.2.2 1 none none

/-- Claim C5: in the Lighter adapter, immediately after any successful
connection the backoff delay is reset to 1 s, and a run of consecutive
failures (connect, subscribe send, ping or pong send, receive error,
close, timeout, stream end — anything but a successful connect) sleeps
exactly 1 s, 2 s, 4 s, … doubling and capped at 60 s; the same sequence is
produced from the initial delay of 1 s. -/
theorem c5_backoff_sequence (d : ℕ) (evs : List LighterEv)
    (h : ∀ e ∈ evs, e ≠ LighterEv.connectOk) :
    lighter_run d (LighterEv.connectOk :: evs) = lighter_run 1 evs ∧
    (lighter_run d (LighterEv.connectOk :: evs)).1
      = (List.range evs.length).map (fun i => min (2 ^ i) 60) := by
  refine ⟨rfl, ?_⟩
  have hb := lighter_run_failures evs h 0
  rw [lighter_run_connectOk,
    show lighter_run 1 evs = lighter_run (min (2 ^ 0) 60) evs from rfl, hb]
  simp only [Nat.zero_add]

theorem c5_backoff_sequence_witness :
    (lighter_run 7 (LighterEv.connectOk :: List.replicate 8 LighterEv.connectFail)).1
      = [1, 2, 4, 8, 16, 32, 60, 60] := by
  have h := (c5_backoff_sequence 7 (List.replicate 8 LighterEv.connectFail)
    (by decide)).2
  rw [h]
  decide
/-- Claim C6 counterexample: the code dedups before sorting
(`dedup_by_key` then `sort_by` in `coin_list_metadate_lighter`), so two
entries with the same market id that are not adjacent in the original
listing both survive; the claim's sort-first-then-dedup order would have
removed the duplicate. On `listing0 = [frA, frX, frB]` (ids 1, 2, 1) the
code returns `[frA, frB, frX]` (ids 1, 1, 2), while sort-then-dedup gives
`[frA, frX]` (ids 1, 2). -/
theorem c6_dedup_order_counterexample :
    coin_list_metadate_lighter (some { code := 200, funding_rates := listing0 })
      = some [frA, frB, frX] ∧
    spec_sorted_dedup listing0 = [frA, frX] ∧
    [frA, frB, frX] ≠ [frA, frX] := by
  refine ⟨rfl, rfl, ?_⟩
  intro h
  exact absurd (congrArg (List.map FundingRate.market_id) h) (by decide)

/-- Claim C6 (amended): when building the market-id index the listing is
deduplicated first — dropping only duplicates adjacent in the original
listing order, keeping the first — and then stably sorted by market id
ascending; the result is sorted, but market-id duplicates that were not
adjacent in the original order are retained. -/
theorem c6_dedup_then_sort (resp : ApiFundingRatesResponse) (r : List FundingRate)
    (h : coin_list_metadate_lighter (some resp) = some r) :
    r = sort_by_market_id (dedup_by_key resp.funding_rates) ∧
      List.Sorted leId r := by
  unfold coin_list_metadate_lighter at h
  dsimp only at h
  by_cases hc : resp.code ≠ 200
  · rw [if_pos hc] at h
    cases h
  · rw [if_neg hc] at h
    injection h with h2
    refine ⟨h2.symm, ?_⟩
    rw [← h2]
    exact sorted_lighter_listing_step resp.funding_rates

theorem c6_dedup_then_sort_witness :
    [frA, frB, frX] = sort_by_market_id (dedup_by_key listing0) ∧
      List.Sorted leId [frA, frB, frX] :=
  c6_dedup_then_sort { code := 200, funding_rates := listing0 } [frA, frB, frX] rfl

/-- Claim C7 counterexample: the listing step is not idempotent. On
`listing0` (ids 1, 2, 1) one application yields ids 1, 1, 2 (the
non-adjacent duplicate survives the dedup that ran before the sort), and a
second application — whose dedup now sees the duplicates adjacent —
removes one more entry. -/
theorem c7_idempotent_counterexample :
    lighter_listing_step (lighter_listing_step listing0) = [frA, frX] ∧
    lighter_listing_step listing0 = [frA, frB, frX] ∧
    [frA, frX] ≠ [frA, frB, frX] := by
  refine ⟨rfl, rfl, ?_⟩
  intro h
  exact absurd (congrArg (List.map FundingRate.market_id) h) (by decide)

/-- Claim C7 (amended): the listing step stabilizes after two
applications rather than one: for every listing, applying the
dedup-then-sort step three times equals applying it twice (the second
application leaves a sorted list with pairwise-distinct adjacent ids, on
which the step is the identity). -/
theorem c7_step_eventually_idempotent (l : List FundingRate) :
    lighter_listing_step (lighter_listing_step (lighter_listing_step l))
      = lighter_listing_step (lighter_listing_step l) := by
  have h2 := lighter_listing_step_twice l
  rw [h2]
  have hd : List.Sorted leId (dedup_by_key (lighter_listing_step l)) :=
    (sorted_lighter_listing_step l).sublist (dedup_by_key_sublist _)
  have hc : List.Chain' neId (dedup_by_key (lighter_listing_step l)) :=
    dedup_by_key_chainNe _
  calc lighter_listing_step (dedup_by_key (lighter_listing_step l))
      = sort_by_market_id (dedup_by_key (dedup_by_key (lighter_listing_step l))) := rfl
    _ = sort_by_market_id (dedup_by_key (lighter_listing_step l)) := by
        rw [dedup_by_key_eq_self _ hc]
    _ = dedup_by_key (lighter_listing_step l) := List.Sorted.insertionSort_eq hd

theorem c7_step_eventually_idempotent_witness :
    lighter_listing_step (lighter_listing_step (lighter_listing_step listing0))
      = lighter_listing_step (lighter_listing_step listing0) :=
  c7_step_eventually_idempotent listing0

/-- Claim C8 counterexample: the string `NaN` is accepted by Rust's f64
parser, so `"NaN".parse::<f64>().unwrap_or(0.0)` is NaN, not 0.0: on a
Hyperliquid message whose funding field is `"NaN"` the update is emitted
with funding NaN rather than the claimed default 0.0. -/
theorem c8_nan_parse_counterexample :
    parse_f64 "NaN" = some F64.nan ∧
    (handle_hyperliquid_message ctxNaN 1).map AssetUpdate.funding = [F64.nan] ∧
    F64.nan ≠ F64.fin 0 := by
  refine ⟨by decide, rfl, by decide⟩

/-- Claim C8 (amended): a numeric field whose string fails to parse (for
example the empty string) defaults to 0.0 without raising an error, field
by field — a message with a single malformed field still emits exactly one
update whose corresponding component is 0.0 — for all three Hyperliquid
fields, and for the Lighter funding, price and open-interest fields (the
latter provided the price parses to a nonzero finite value; with both
open interest and price malformed the emitted open interest is 0/0, NaN).
However `"NaN"` does not fail to parse: it parses to the NaN value, which
is emitted as is. -/
theorem c8_default_zero_on_parse_failure :
    (∀ (a : ActiveAssetCtx) (e : ℕ) (p : PerpsAssetCtx),
      a.data.ctx = AssetCtx.perps p → parse_f64 p.funding = none →
      (handle_hyperliquid_message a e).map AssetUpdate.funding = [F64.fin 0]) ∧
    (∀ (a : ActiveAssetCtx) (e : ℕ) (p : PerpsAssetCtx),
      a.data.ctx = AssetCtx.perps p → parse_f64 p.open_interest = none →
      (handle_hyperliquid_message a e).map AssetUpdate.open_interest = [F64.fin 0]) ∧
    (∀ (a : ActiveAssetCtx) (e : ℕ) (p : PerpsAssetCtx),
      a.data.ctx = AssetCtx.perps p → parse_f64 p.oracle_px = none →
      (handle_hyperliquid_message a e).map AssetUpdate.price = [F64.fin 0]) ∧
    (∀ (mm : List (ℕ × String)) (e : ℕ) (stats : MarketStatEntry),
      parse_f64 stats.current_funding_rate = none →
      (lighterUpdate mm e stats).funding = F64.fin 0) ∧
    (∀ (mm : List (ℕ × String)) (e : ℕ) (stats : MarketStatEntry),
      parse_f64 stats.mark_price = none →
      (lighterUpdate mm e stats).price = F64.fin 0) ∧
    (∀ (mm : List (ℕ × String)) (e : ℕ) (stats : MarketStatEntry) (q : ℚ),
      parse_f64 stats.open_interest = none →
      parse_f64 stats.mark_price = some (F64.fin q) → q ≠ 0 →
      (lighterUpdate mm e stats).open_interest = F64.fin 0) ∧
    (∀ (m : MarketStatsMessage) (e : ℕ) (mm : List (ℕ × String))
      (p : String × MarketStatEntry),
      p ∈ m.market_stats → lighterUpdate mm e p.2 ∈ handle_lighter_message m e mm) ∧
    parse_f64 "" = none ∧ parse_f64 "NaN" = some F64.nan := by
  refine ⟨?_, ?_, ?_, ?_, ?_, ?_, ?_, by decide, by decide⟩
  · intro a e p hctx hf
    unfold handle_hyperliquid_message
    rw [hctx]
    simp only [List.map_cons, List.map_nil, parse_f64_or_zero, hf, Option.getD_none]
  · intro a e p hctx ho
    unfold handle_hyperliquid_message
    rw [hctx]
    simp only [List.map_cons, List.map_nil, parse_f64_or_zero, ho, Option.getD_none]
  · intro a e p hctx hq
    unfold handle_hyperliquid_message
    rw [hctx]
    simp only [List.map_cons, List.map_nil, parse_f64_or_zero, hq, Option.getD_none]
  · intro mm e stats hf
    show (parse_f64 stats.current_funding_rate).getD (F64.fin 0) = F64.fin 0
    rw [hf]
    rfl
  · intro mm e stats hpx
    show (parse_f64 stats.mark_price).getD (F64.fin 0) = F64.fin 0
    rw [hpx]
    rfl
  · intro mm e stats q hoi hpx hq
    show fmul (fdiv (parse_f64_or_zero stats.open_interest)
      (parse_f64_or_zero stats.mark_price)) (F64.fin 2) = F64.fin 0
    rw [parse_f64_or_zero, parse_f64_or_zero, hoi, hpx]
    simp only [Option.getD_none, Option.getD_some]
    simp only [fdiv, if_neg hq, zero_div, fmul, zero_mul]
  · intro m e mm p hp
    exact List.mem_map_of_mem (fun q => lighterUpdate mm e q.2) hp

theorem c8_default_zero_on_parse_failure_witness :
    (handle_hyperliquid_message ctxEmpty 1).map AssetUpdate.funding = [F64.fin 0] :=
  c8_default_zero_on_parse_failure.1 ctxEmpty 1 pEmptyStrs rfl (by decide)

/-- Claim C9 counterexample: two task-ending failures the claim rules out.
A failure of the Lighter adapter's initial listing fetch propagates with
`?` and ends that task with an error, and a failure of Hyperliquid client
creation (or of a subscription) panics that task via `expect`. -/
theorem c9_task_end_counterexample :
    lighter_websocket none [] = LighterTaskOutcome.err_end ∧
    hyperliquid_start none [] = HlStartOutcome.panicked :=
  ⟨rfl, rfl⟩

/-- Claim C9 (amended): once the Lighter adapter's initial listing fetch
succeeds, no finite sequence of transport events (connect failures,
subscribe-send failures, ping/pong failures, receive errors, closes,
timeouts, stream ends) ends the task — it is still running afterwards; but
the initial fetch failing ends the Lighter task with an error, and a
failed Hyperliquid client creation or subscription panics that task. -/
theorem c9_transient_vs_fatal :
    (∀ (rates : List FundingRate) (evs : List LighterEv),
      lighter_websocket (some rates) evs
        = LighterTaskOutcome.running (buildMarketMap rates) (lighter_run 1 evs).2) ∧
    (∀ (rates : List FundingRate) (evs : List LighterEv),
      lighter_websocket (some rates) evs ≠ LighterTaskOutcome.err_end) ∧
    (∀ evs, lighter_websocket none evs = LighterTaskOutcome.err_end) ∧
    (∀ subs, hyperliquid_start none subs = HlStartOutcome.panicked) ∧
    (∀ subs, subs.all Option.isSome = false →
      hyperliquid_start (some ()) subs = HlStartOutcome.panicked) := by
  refine ⟨fun _ _ => rfl, ?_, fun _ => rfl, fun _ => rfl, ?_⟩
  · intro rates evs h
    exact LighterTaskOutcome.noConfusion h
  · intro subs h
    unfold hyperliquid_start
    rw [h]
    rfl

theorem c9_transient_vs_fatal_witness :
    lighter_websocket (some []) [LighterEv.connectFail, LighterEv.recvTimeout]
      ≠ LighterTaskOutcome.err_end :=
  c9_transient_vs_fatal.2.1 [] [LighterEv.connectFail, LighterEv.recvTimeout]

/-- Claim C10: the Lighter handler truncates the wire's 64-bit market id
modulo 256 (the `as u8` cast) before the map lookup: any two entries whose
ids are congruent modulo 256, the smaller of which resolves through the
index, resolve to the same symbol; and when the truncated id is absent the
placeholder embeds the full untruncated id. -/
theorem c10_market_id_truncation :
    (∀ (mm : List (ℕ × String)) (e : ℕ) (s1 s2 : MarketStatEntry) (sym : String),
      s1.market_id < s2.market_id →
      s1.market_id % 256 = s2.market_id % 256 →
      mapLookup mm (s1.market_id % 256) = some sym →
      (lighterUpdate mm e s1).symbol = sym ∧ (lighterUpdate mm e s2).symbol = sym) ∧
    (∀ (mm : List (ℕ × String)) (e : ℕ) (stats : MarketStatEntry),
      mapLookup mm (stats.market_id % 256) = none →
      (lighterUpdate mm e stats).symbol = "UNKNOWN_" ++ toString stats.market_id) := by
  constructor
  · intro mm e s1 s2 sym hlt hcong hlk
    constructor
    · show resolveSymbol mm s1.market_id = sym
      unfold resolveSymbol
      rw [hlk]
    · show resolveSymbol mm s2.market_id = sym
      unfold resolveSymbol
      rw [← hcong, hlk]
  · intro mm e stats hlk
    show resolveSymbol mm stats.market_id = "UNKNOWN_" ++ toString stats.market_id
    unfold resolveSymbol
    rw [hlk]

theorem c10_market_id_truncation_witness :
    (lighterUpdate mmETH 2 statsEntry0).symbol = "ETH" ∧
      (lighterUpdate mmETH 2 statsEntry260).symbol = "ETH" :=
  c10_market_id_truncation.1 mmETH 2 statsEntry0 statsEntry260 "ETH"
    (by decide) (by decide) (by decide)
